import Mathlib

/-!
Verification of the best-alignment selection logic of the macaque-workflows
repository, together with two small utility interfaces.

The central piece is `SelectCoregistration._run_interface`
(src/macaque_utils/interfaces/select_coreg.py): given a target volume and a
list of candidate source volumes, it

  1. binarizes the target into a mask (non-zero voxel -> included),
  2. extracts the target voxels under the mask (the external nilearn masker
     refuses an empty mask, raising a ValueError before any candidate is
     touched),
  3. for each candidate in order, extracts its voxels under the same mask and
     computes the Pearson correlation with the target voxels (an external
     scipy call that yields NaN on degenerate, zero-variance input),
  4. selects `np.nanargmax(correlations)` (NaN entries ignored; numpy raises a
     ValueError when every entry is NaN),
  5. writes the correlation vector to a file and returns the selected index,
     wrapped in a singleton list when `output_list` is set.

Volumes are modelled as flat lists of exact rationals in a fixed voxel order
(the mask gives positional correspondence between target and candidates, which
is all the algorithm uses).  NaN scores are modelled as `none`.  The external
Pearson-correlation collaborator is a parameter `score` of the embedding; the
repository's control flow around it is translated literally, including the
order of the argmax and the file write.  The run is recorded as a `RunTrace`:
the outcome (index or typed error), the list of scores actually computed, and
the persisted file content if the write was reached.
-/

/-- Model of `nilearn.image.binarize_img` with threshold 0 applied to a
volume: every non-zero voxel becomes a `true` mask entry. -/
def binarize_img (v : List ℚ) : List Bool :=
  v.map (fun x => decide (x ≠ 0))

/-- Model of applying a boolean mask to a volume on the same voxel grid:
keep the voxels at `true` positions, in grid order (the fixed ordering the
nilearn masker gives to `fit_transform(...).ravel()`). -/
def applyMask (mask : List Bool) (v : List ℚ) : List ℚ :=
  ((mask.zip v).filter (fun p => p.1)).map (fun p => p.2)

/-- A mask is empty when it has no `true` voxel; the nilearn masker raises
`ValueError` (the mask is invalid as it is empty) on such a mask. -/
def maskIsEmpty (mask : List Bool) : Bool :=
  !(mask.any (fun b => b))

/-- Model of `numpy.nanargmax` on a list of scores where `none` stands for
NaN: NaN entries are ignored and the index of the first occurrence of the
maximum remaining value is returned; when every entry is NaN (or the list is
empty) numpy raises `ValueError`, modelled as `none`. -/
def nanargmax (xs : List (Option ℚ)) : Option ℕ :=
  match (xs.filterMap id).max? with
  | none => none
  | some m => some (xs.findIdx (fun o => decide (o = some m)))

/-- Typed error states of a selection run.  The source surfaces both as
`ValueError` from the libraries it calls; the spec names them
`EmptyMaskError` and `NoValidCandidateError`. -/
inductive SelectError
  | emptyMask
  | noValidCandidate
deriving DecidableEq

/-- The returned index: a bare integer, or (when `output_list` is set) a
list of indices — the source wraps the chosen index as `[idx]`. -/
inductive IndexOut
  | scalar : ℕ → IndexOut
  | list : List ℕ → IndexOut
deriving DecidableEq

/-- The outcome of a run: a selected index or a typed error. -/
inductive Outcome
  | ok : IndexOut → Outcome
  | error : SelectError → Outcome
deriving DecidableEq

/-- Full record of one `_run_interface` invocation: the outcome, the
correlation scores computed in memory (in candidate order, as far as the run
got), and the content of the persisted score file if the write was reached
(`none` when the run aborted before `np.savetxt`). -/
structure RunTrace where
  outcome : Outcome
  scored : List (Option ℚ)
  persisted : Option (List (Option ℚ))
deriving DecidableEq

/-- The correlation loop of `_run_interface` (lines 43-47): for each source
in order, extract its voxels under the target mask and score them against the
target voxels.  `score` is the external `scipy.stats.pearsonr` collaborator,
returning `none` for a NaN correlation. -/
def scoreVector (score : List ℚ → List ℚ → Option ℚ)
    (target : List ℚ) (sources : List (List ℚ)) : List (Option ℚ) :=
  let mask := binarize_img target
  let target_vox := applyMask mask target
  sources.map (fun src => score target_vox (applyMask mask src))

/-- Model of `SelectCoregistration._run_interface`
(src/macaque_utils/interfaces/select_coreg.py, lines 35-58), parameterized by
the external correlation collaborator `score`.  Control flow is translated
literally: the masker aborts on an empty target mask before any candidate is
scored; `nanargmax` aborts on an all-NaN score vector before the score file
is written; on success the index is wrapped as a singleton list when
`output_list` is set, and the score vector is persisted. -/
def run_interface (score : List ℚ → List ℚ → Option ℚ)
    (target : List ℚ) (sources : List (List ℚ)) (output_list : Bool) :
    RunTrace :=
  let mask := binarize_img target
  if maskIsEmpty mask then
    ⟨Outcome.error SelectError.emptyMask, [], none⟩
  else
    let correlations := scoreVector score target sources
    match nanargmax correlations with
    | none => ⟨Outcome.error SelectError.noValidCandidate, correlations, none⟩
    | some idx =>
        ⟨Outcome.ok (if output_list then IndexOut.list [idx]
            else IndexOut.scalar idx),
          correlations, some correlations⟩

/-- The index value an `IndexOut` denotes: a bare `i`, or the singleton
list `[i]`. -/
def IndexOut.denotes : IndexOut → ℕ → Prop
  | IndexOut.scalar j, i => j = i
  | IndexOut.list l, i => l = [i]

/-- Arithmetic mean of a rational list. -/
def listMean (xs : List ℚ) : ℚ := xs.sum / xs.length

/-- Sum of products of deviations from the means, the numerator part of a
covariance. -/
def covSum (xs ys : List ℚ) : ℚ :=
  ((xs.zip ys).map (fun p => (p.1 - listMean xs) * (p.2 - listMean ys))).sum

/-- Sum of squared deviations from the mean, the numerator part of a
variance. -/
def varSum (xs : List ℚ) : ℚ :=
  (xs.map (fun x => (x - listMean xs) * (x - listMean xs))).sum

/-- Modelled from the spec: the external collaborator `scipy.stats.pearsonr`
computes the Pearson correlation r = cov/(sigma_x * sigma_y) and yields NaN
exactly on degenerate input — zero-variance (constant) data, for which the
spec says correlation is undefined (scipy also refuses vectors shorter than
two samples).  The value r itself involves a square root and so leaves exact
rational arithmetic; this model returns the strictly increasing
reparameterization r * |r| = cov * |cov| / (var_x * var_y), which has the
same NaN cases, the same ordering and the same ties as r (and, like r, equals
1 on identical vectors), hence induces the same argmax behavior. -/
def pearsonScore (xs ys : List ℚ) : Option ℚ :=
  if xs.length < 2 then none
  else if varSum xs = 0 ∨ varSum ys = 0 then none
  else some (covSum xs ys * |covSum xs ys| / (varSum xs * varSum ys))

/-- A simple instance of the external scoring collaborator used to exercise
the selection logic on concrete inputs: a candidate identical to the target
voxels scores 1 (perfect correlation), anything else scores 0.  (The full
`pearsonScore` model involves rational division, which Lean's kernel cannot
evaluate; this instance keeps concrete runs kernel-computable.) -/
def matchScore (target_vox src_vox : List ℚ) : Option ℚ :=
  if src_vox = target_vox then some 1 else some 0

/-- An instance of the external scoring collaborator on which every candidate
is degenerate: every score is NaN, as happens with `pearsonScore` whenever
every candidate is constant over the target mask. -/
def nanScore (_target_vox _src_vox : List ℚ) : Option ℚ := none

/-- Model of `check_params` (src/macaque_workflows/utils.py, lines 5-15) on a
parameter dictionary, modelled as an association list with string keys.  The
source's other branch (loading the dictionary from a JSON file when a path is
given) is file input and is outside this model; the validation applied
afterwards is the same.  The source raises
`KeyError(f"Parameters must have keys: {required}")` when `required` is not a
subset of the dictionary's keys, modelled as `Except.error required`;
otherwise it returns the dictionary itself. -/
def check_params {V : Type} (params : List (String × V))
    (required : List String) : Except (List String) (List (String × V)) :=
  if required.all (fun k => (params.map Prod.fst).contains k) then
    Except.ok params
  else
    Except.error required

/-- A NIfTI image as `HemisphereMask` uses it: voxel data on a 3-D grid
(values modelled as exact rationals) together with an affine, kept opaque. -/
structure Nifti (A : Type) where
  data : ℕ → ℕ → ℕ → ℚ
  affine : A

/-- The two outputs of `HemisphereMask`. -/
structure HemiOut (A : Type) where
  right_mask : Nifti A
  left_mask : Nifti A

/-- Model of `HemisphereMask._run_interface`
(src/macaque_workflows/interfaces/nmt.py, lines 62-89): with `midpoint = 64`,
the right mask is a copy of the input with the slab of first-axis indices
below 64 multiplied by zero (`right_mask[:midpoint, :, :] *= 0`), the left
mask a copy with the slab of indices from 64 on multiplied by zero
(`left_mask[midpoint:, :, :] *= 0`); both outputs are written with the input
image's affine (the float32 cast of the source is the identity on the exact
values modelled here). -/
def hemisphere_mask {A : Type} (img : Nifti A) : HemiOut A :=
  let midpoint : ℕ := 64
  { right_mask :=
      { data := fun i j k =>
          if i < midpoint then 0 * img.data i j k else img.data i j k
        affine := img.affine }
    left_mask :=
      { data := fun i j k =>
          if midpoint ≤ i then 0 * img.data i j k else img.data i j k
        affine := img.affine } }

example : binarize_img [0, 1, -2, 0] = [false, true, true, false] := by decide
example : applyMask [false, true, true, false] [5, 6, 7, 8] = [6, 7] := by
  decide
example : nanargmax [none, some 2, some 5, none, some 5] = some 2 := by decide
example : nanargmax [none, none] = none := by decide
example : pearsonScore [1, 2] [1, 2] = some 1 := by
  norm_num [pearsonScore, varSum, covSum, listMean, abs_of_pos]
example : pearsonScore [1, 2] [3, 3] = none := by
  norm_num [pearsonScore, varSum, covSum, listMean]
example :
    run_interface matchScore [1, 2] [[2, 1], [1, 2]] true =
      ⟨Outcome.ok (IndexOut.list [1]), [some 0, some 1],
        some [some 0, some 1]⟩ := by decide
example :
    run_interface nanScore [1, 2] [[1, 1], [2, 2]] false =
      ⟨Outcome.error SelectError.noValidCandidate, [none, none], none⟩ := by
  decide
example :
    run_interface matchScore [0, 0] [[1, 2]] true =
      ⟨Outcome.error SelectError.emptyMask, [], none⟩ := by decide
example :
    check_params [("tr", (1 : ℤ)), ("te", 2)] ["tr"] =
      Except.ok [("tr", 1), ("te", 2)] := rfl
example :
    check_params [("tr", (1 : ℤ))] ["tr", "te"] = Except.error ["tr", "te"] :=
  rfl

/-! ### Helper lemmas about the NaN-aware argmax -/

/-- Characterization of `List.max?` on rationals: it returns `m` exactly when
`m` is a member and an upper bound. -/
theorem rat_max?_eq_some_iff {xs : List ℚ} {m : ℚ} :
    xs.max? = some m ↔ m ∈ xs ∧ ∀ b ∈ xs, b ≤ m :=
  @List.max?_eq_some_iff ℚ m _ _ ⟨fun h1 h2 => le_antisymm h1 h2⟩
    (fun a => le_refl a) (fun a b => max_choice a b) (fun _ _ _ => max_le_iff)
    xs

/-- `nanargmax` reports no index exactly when every entry is NaN. -/
theorem nanargmax_eq_none_iff (xs : List (Option ℚ)) :
    nanargmax xs = none ↔ ∀ o ∈ xs, o = none := by
  unfold nanargmax
  cases hmax : (xs.filterMap id).max? with
  | none =>
    rw [List.max?_eq_none_iff, List.filterMap_eq_nil_iff] at hmax
    simpa using hmax
  | some m =>
    have hm : some m ∈ xs := by
      have := rat_max?_eq_some_iff.mp hmax
      obtain ⟨a, ha, rfl⟩ := List.mem_filterMap.mp this.1
      exact ha
    simp only [reduceCtorEq, false_iff, not_forall]
    exact ⟨some m, hm, by simp⟩

/-- When some entry of the score list is a real value, `nanargmax` succeeds. -/
theorem nanargmax_isSome_of_exists {xs : List (Option ℚ)} {j : ℕ} {q : ℚ}
    (hj : xs[j]? = some (some q)) : ∃ i, nanargmax xs = some i := by
  cases h : nanargmax xs with
  | some i => exact ⟨i, rfl⟩
  | none =>
    have hmem : some q ∈ xs := List.getElem?_mem hj
    have := (nanargmax_eq_none_iff xs).mp h (some q) hmem
    simp at this

/-- Full specification of a successful `nanargmax`: the returned index holds
some real score `m`, `m` bounds every real score in the list, and every
strictly earlier real score is strictly below `m` (first-occurrence /
stable-argmax semantics). -/
theorem nanargmax_spec {xs : List (Option ℚ)} {i : ℕ}
    (h : nanargmax xs = some i) :
    ∃ m : ℚ, xs[i]? = some (some m)
      ∧ (∀ (j : ℕ) (q : ℚ), xs[j]? = some (some q) → q ≤ m)
      ∧ ∀ j : ℕ, j < i → ∀ q : ℚ, xs[j]? = some (some q) → q ≠ m := by
  unfold nanargmax at h
  cases hmax : (xs.filterMap id).max? with
  | none => rw [hmax] at h; cases h
  | some m =>
    rw [hmax] at h
    have hi : xs.findIdx (fun o => decide (o = some m)) = i :=
      Option.some.inj h
    obtain ⟨hmemf, hub⟩ := rat_max?_eq_some_iff.mp hmax
    have hmem : some m ∈ xs := by
      obtain ⟨a, ha, rfl⟩ := List.mem_filterMap.mp hmemf
      exact ha
    have hex : ∃ x ∈ xs, (fun o => decide (o = some m)) x = true :=
      ⟨some m, hmem, by simp⟩
    have hlen : xs.findIdx (fun o => decide (o = some m)) < xs.length :=
      List.findIdx_lt_length_of_exists hex
    refine ⟨m, ?_, ?_, ?_⟩
    · rw [← hi]
      rw [List.getElem?_eq_getElem hlen]
      have := @List.findIdx_getElem _ (fun o => decide (o = some m)) xs hlen
      simpa using this
    · intro j q hjq
      have hqmem : some q ∈ xs := List.getElem?_mem hjq
      exact hub q (List.mem_filterMap.mpr ⟨some q, hqmem, rfl⟩)
    · intro j hj q hjq hqm
      subst hqm
      rw [← hi] at hj
      have hjlen : j < xs.length := lt_trans hj hlen
      have hfalse := List.not_of_lt_findIdx hj
      rw [List.getElem?_eq_getElem hjlen] at hjq
      have : xs[j] = some q := Option.some.inj hjq
      rw [this] at hfalse
      simp at hfalse

/-! ### Unfolding lemmas for the three control-flow branches of a run -/

/-- A run on a target whose derived mask is empty aborts at the masker: no
candidate is scored, no index produced, no file written. -/
theorem run_interface_empty_mask (score : List ℚ → List ℚ → Option ℚ)
    (t : List ℚ) (cs : List (List ℚ)) (b : Bool)
    (h : maskIsEmpty (binarize_img t) = true) :
    run_interface score t cs b =
      ⟨Outcome.error SelectError.emptyMask, [], none⟩ := by
  unfold run_interface
  simp [h]

/-- A run on a target with a non-empty mask whose score vector admits no real
entry aborts at the argmax, after the scoring loop but before the file
write. -/
theorem run_interface_nonempty_nan (score : List ℚ → List ℚ → Option ℚ)
    (t : List ℚ) (cs : List (List ℚ)) (b : Bool)
    (h : maskIsEmpty (binarize_img t) = false)
    (hnan : nanargmax (scoreVector score t cs) = none) :
    run_interface score t cs b =
      ⟨Outcome.error SelectError.noValidCandidate, scoreVector score t cs,
        none⟩ := by
  unfold run_interface
  simp only [h, hnan, Bool.false_eq_true, if_false]

/-- A successful run: the argmax index is returned (wrapped when
`output_list` is set) and the score vector is persisted. -/
theorem run_interface_success (score : List ℚ → List ℚ → Option ℚ)
    (t : List ℚ) (cs : List (List ℚ)) (b : Bool) (i : ℕ)
    (h : maskIsEmpty (binarize_img t) = false)
    (hidx : nanargmax (scoreVector score t cs) = some i) :
    run_interface score t cs b =
      ⟨Outcome.ok (if b then IndexOut.list [i] else IndexOut.scalar i),
        scoreVector score t cs, some (scoreVector score t cs)⟩ := by
  unfold run_interface
  simp only [h, hidx, Bool.false_eq_true, if_false]

/-- The score vector has one entry per candidate. -/
theorem scoreVector_length (score : List ℚ → List ℚ → Option ℚ)
    (t : List ℚ) (cs : List (List ℚ)) :
    (scoreVector score t cs).length = cs.length := by
  simp [scoreVector]

/-! ### Claims -/

/-- C1: for every run whose target mask is non-empty (the scoring loop is
reached) and whose score vector has at least one non-NaN entry, the selection
succeeds and returns an index `i` whose score bounds every non-NaN score in
the vector. -/
theorem select_best_alignment_returns_max
    (score : List ℚ → List ℚ → Option ℚ) (target : List ℚ)
    (sources : List (List ℚ)) (output_list : Bool)
    (hmask : maskIsEmpty (binarize_img target) = false)
    (hvalid : ∃ (j : ℕ) (q : ℚ),
      (scoreVector score target sources)[j]? = some (some q)) :
    ∃ (o : IndexOut) (i : ℕ) (r : ℚ),
      (run_interface score target sources output_list).outcome = Outcome.ok o
      ∧ o.denotes i
      ∧ (scoreVector score target sources)[i]? = some (some r)
      ∧ ∀ (j : ℕ) (q : ℚ),
          (scoreVector score target sources)[j]? = some (some q) → q ≤ r := by
  obtain ⟨j, q, hj⟩ := hvalid
  obtain ⟨i, hi⟩ := nanargmax_isSome_of_exists hj
  obtain ⟨m, him, hub, _⟩ := nanargmax_spec hi
  refine ⟨if output_list then IndexOut.list [i] else IndexOut.scalar i, i, m,
    ?_, ?_, him, hub⟩
  · rw [run_interface_success score target sources output_list i hmask hi]
  · by_cases hb : output_list <;> simp [hb, IndexOut.denotes]

/-- Witness for C1 at a concrete input: target `[1, 2]`, two candidates of
which the second matches the target exactly. -/
theorem select_best_alignment_returns_max_witness :
    ∃ (o : IndexOut) (i : ℕ) (r : ℚ),
      (run_interface matchScore [1, 2] [[2, 1], [1, 2]] true).outcome =
        Outcome.ok o
      ∧ o.denotes i
      ∧ (scoreVector matchScore [1, 2] [[2, 1], [1, 2]])[i]? = some (some r)
      ∧ ∀ (j : ℕ) (q : ℚ),
          (scoreVector matchScore [1, 2] [[2, 1], [1, 2]])[j]? =
            some (some q) → q ≤ r :=
  select_best_alignment_returns_max matchScore [1, 2] [[2, 1], [1, 2]] true
    (by decide) ⟨0, 0, by decide⟩

/-- C2, counterexample: with the Pearson collaborator, a non-constant target
`[1, 2]` and two constant candidates give an all-NaN score vector; the run
raises the no-valid-candidate error, but nothing at all is persisted — the
source's `np.nanargmax` (line 49) raises before `np.savetxt` (line 55) is
reached, so the claimed score file with N NaN entries is never written. -/
theorem all_nan_run_persists_nothing :
    (run_interface pearsonScore [1, 2] [[1, 1], [2, 2]] true).outcome =
      Outcome.error SelectError.noValidCandidate
    ∧ (run_interface pearsonScore [1, 2] [[1, 1], [2, 2]] true).persisted =
      none := by
  have h1 : binarize_img [1, 2] = [true, true] := by decide
  have h2 : applyMask [true, true] [1, 2] = [1, 2] := by decide
  have h3 : applyMask [true, true] [1, 1] = [1, 1] := by decide
  have h4 : applyMask [true, true] [2, 2] = [2, 2] := by decide
  have hvec : scoreVector pearsonScore [1, 2] [[1, 1], [2, 2]] =
      [none, none] := by
    simp only [scoreVector, h1, h2, h3, h4, List.map_cons, List.map_nil]
    norm_num [pearsonScore, varSum, covSum, listMean]
  have h := run_interface_nonempty_nan pearsonScore [1, 2] [[1, 1], [2, 2]]
    true (by decide) (by rw [hvec]; decide)
  rw [h]
  exact ⟨rfl, rfl⟩

/-- C2 as amended: when the target mask is non-empty and every computed score
is NaN, the run raises the no-valid-candidate error and the in-memory score
vector indeed has one NaN entry per candidate — but the score file is not
written (`persisted = none`): the error is signalled before persistence, not
after it. -/
theorem all_nan_raises_before_write
    (score : List ℚ → List ℚ → Option ℚ) (target : List ℚ)
    (sources : List (List ℚ)) (output_list : Bool)
    (hmask : maskIsEmpty (binarize_img target) = false)
    (hall : ∀ o ∈ scoreVector score target sources, o = none) :
    run_interface score target sources output_list =
      ⟨Outcome.error SelectError.noValidCandidate,
        scoreVector score target sources, none⟩
    ∧ (scoreVector score target sources).length = sources.length := by
  have hnan := (nanargmax_eq_none_iff (scoreVector score target sources)).mpr
    hall
  exact ⟨run_interface_nonempty_nan score target sources output_list hmask
    hnan, scoreVector_length score target sources⟩

/-- Witness for the amended C2: a two-candidate run in which the collaborator
returns NaN for every candidate. -/
theorem all_nan_raises_before_write_witness :
    run_interface nanScore [1, 2] [[1, 1], [2, 2]] true =
      ⟨Outcome.error SelectError.noValidCandidate,
        scoreVector nanScore [1, 2] [[1, 1], [2, 2]], none⟩
    ∧ (scoreVector nanScore [1, 2] [[1, 1], [2, 2]]).length =
      [[1, 1], [2, 2]].length :=
  all_nan_raises_before_write nanScore [1, 2] [[1, 1], [2, 2]] true
    (by decide) (by decide)

/-- C3: whenever the scoring loop is reached (the run does not abort on an
empty target mask), the in-memory score vector has exactly one entry per
candidate — also on runs where the selection itself fails — and whatever is
persisted has that same length. -/
theorem score_vector_length_matches_candidates
    (score : List ℚ → List ℚ → Option ℚ) (target : List ℚ)
    (sources : List (List ℚ)) (output_list : Bool)
    (h : (run_interface score target sources output_list).outcome ≠
      Outcome.error SelectError.emptyMask) :
    (run_interface score target sources output_list).scored.length =
      sources.length
    ∧ ∀ p, (run_interface score target sources output_list).persisted =
        some p → p.length = sources.length := by
  cases hm : maskIsEmpty (binarize_img target) with
  | true =>
    rw [run_interface_empty_mask score target sources output_list hm] at h
    simp at h
  | false =>
    cases hn : nanargmax (scoreVector score target sources) with
    | none =>
      rw [run_interface_nonempty_nan score target sources output_list hm hn]
      refine ⟨scoreVector_length score target sources, ?_⟩
      intro p hp
      cases hp
    | some i =>
      rw [run_interface_success score target sources output_list i hm hn]
      refine ⟨scoreVector_length score target sources, ?_⟩
      intro p hp
      rw [← Option.some.inj hp]
      exact scoreVector_length score target sources

/-- Witness for C3: a failing (all-NaN) two-candidate run still has a
two-entry score vector. -/
theorem score_vector_length_matches_candidates_witness :
    (run_interface nanScore [1, 2] [[1, 1], [2, 2]] true).scored.length =
      [[1, 1], [2, 2]].length
    ∧ ∀ p, (run_interface nanScore [1, 2] [[1, 1], [2, 2]] true).persisted =
        some p → p.length = [[1, 1], [2, 2]].length :=
  score_vector_length_matches_candidates nanScore [1, 2] [[1, 1], [2, 2]]
    true (by decide)

/-- C4: a target whose derived binary mask has no true voxel makes the run
abort with the empty-mask error before anything else happens: no candidate
score is computed (`scored = []`), nothing is persisted, and no selection
index is produced. -/
theorem empty_mask_aborts_before_scoring
    (score : List ℚ → List ℚ → Option ℚ) (target : List ℚ)
    (sources : List (List ℚ)) (output_list : Bool)
    (h : maskIsEmpty (binarize_img target) = true) :
    run_interface score target sources output_list =
      ⟨Outcome.error SelectError.emptyMask, [], none⟩
    ∧ ∀ o, (run_interface score target sources output_list).outcome ≠
        Outcome.ok o := by
  have hrun := run_interface_empty_mask score target sources output_list h
  refine ⟨hrun, ?_⟩
  intro o
  rw [hrun]
  simp

/-- Witness for C4: an all-zero three-voxel target with one candidate. -/
theorem empty_mask_aborts_before_scoring_witness :
    run_interface matchScore [0, 0, 0] [[1, 2, 3]] true =
      ⟨Outcome.error SelectError.emptyMask, [], none⟩
    ∧ ∀ o, (run_interface matchScore [0, 0, 0] [[1, 2, 3]] true).outcome ≠
        Outcome.ok o :=
  empty_mask_aborts_before_scoring matchScore [0, 0, 0] [[1, 2, 3]] true
    (by decide)

/-- C5: the selection implements a stable argmax.  Whenever a run returns an
index `i`, the score at `i` is a real value `r` that bounds every non-NaN
score, and every candidate strictly before `i` scores strictly below `r` — so
when the maximum is attained more than once, the smallest such index is
returned (first occurrence). -/
theorem select_tie_break_first_occurrence
    (score : List ℚ → List ℚ → Option ℚ) (target : List ℚ)
    (sources : List (List ℚ)) (output_list : Bool) (o : IndexOut) (i : ℕ)
    (hok : (run_interface score target sources output_list).outcome =
      Outcome.ok o)
    (hden : o.denotes i) :
    ∃ r : ℚ, (scoreVector score target sources)[i]? = some (some r)
      ∧ (∀ (j : ℕ) (q : ℚ),
          (scoreVector score target sources)[j]? = some (some q) → q ≤ r)
      ∧ ∀ j : ℕ, j < i → ∀ q : ℚ,
          (scoreVector score target sources)[j]? = some (some q) → q < r := by
  cases hm : maskIsEmpty (binarize_img target) with
  | true =>
    rw [run_interface_empty_mask score target sources output_list hm] at hok
    simp at hok
  | false =>
    cases hn : nanargmax (scoreVector score target sources) with
    | none =>
      rw [run_interface_nonempty_nan score target sources output_list hm hn]
        at hok
      simp at hok
    | some i0 =>
      rw [run_interface_success score target sources output_list i0 hm hn]
        at hok
      simp only [Outcome.ok.injEq] at hok
      have hii : i0 = i := by
        cases hb : output_list with
        | true =>
          rw [hb] at hok
          simp only [if_true] at hok
          rw [← hok] at hden
          simpa [IndexOut.denotes] using hden
        | false =>
          rw [hb] at hok
          simp only [Bool.false_eq_true, if_false] at hok
          rw [← hok] at hden
          simpa [IndexOut.denotes] using hden
      subst hii
      obtain ⟨m, him, hub, hne⟩ := nanargmax_spec hn
      refine ⟨m, him, hub, ?_⟩
      intro j hj q hjq
      exact lt_of_le_of_ne (hub j q hjq) (hne j hj q hjq)

/-- Witness for C5 at the spec's tie scenario: two identical candidates, both
matching the target exactly (both score 1); the run returns index 0. -/
theorem select_tie_break_first_occurrence_witness :
    (run_interface matchScore [1, 2] [[1, 2], [1, 2]] true).outcome =
      Outcome.ok (IndexOut.list [0])
    ∧ ∃ r : ℚ, (scoreVector matchScore [1, 2] [[1, 2], [1, 2]])[0]? =
        some (some r)
      ∧ (∀ (j : ℕ) (q : ℚ),
          (scoreVector matchScore [1, 2] [[1, 2], [1, 2]])[j]? =
            some (some q) → q ≤ r)
      ∧ ∀ j : ℕ, j < 0 → ∀ q : ℚ,
          (scoreVector matchScore [1, 2] [[1, 2], [1, 2]])[j]? =
            some (some q) → q < r :=
  ⟨by decide,
    select_tie_break_first_occurrence matchScore [1, 2] [[1, 2], [1, 2]] true
      (IndexOut.list [0]) 0 (by decide) rfl⟩

/-- C6: the selection is deterministic — two invocations with the same
collaborator, target, candidate sequence and flag produce the same full run
record (index, in-memory scores and persisted file alike). -/
theorem select_deterministic
    (score : List ℚ → List ℚ → Option ℚ) (t t2 : List ℚ)
    (cs cs2 : List (List ℚ)) (b b2 : Bool)
    (ht : t = t2) (hcs : cs = cs2) (hb : b = b2) :
    run_interface score t cs b = run_interface score t2 cs2 b2 := by
  subst ht
  subst hcs
  subst hb
  rfl

/-- Witness for C6 at a concrete input. -/
theorem select_deterministic_witness :
    run_interface matchScore [1, 2] [[1, 2]] true =
      run_interface matchScore [1, 2] [[1, 2]] true :=
  select_deterministic matchScore [1, 2] [1, 2] [[1, 2]] [[1, 2]] true true
    rfl rfl rfl

/-- C7: on success, the run with `output_list = false` returns the bare index
`i` exactly when the run with `output_list = true` returns the singleton list
`[i]`; and every successful `output_list = true` run returns a single-element
list whose element is the bare index of the corresponding scalar run. -/
theorem return_as_list_wraps_same_index
    (score : List ℚ → List ℚ → Option ℚ) (target : List ℚ)
    (sources : List (List ℚ)) :
    (∀ i : ℕ,
      (run_interface score target sources false).outcome =
        Outcome.ok (IndexOut.scalar i)
      ↔ (run_interface score target sources true).outcome =
        Outcome.ok (IndexOut.list [i]))
    ∧ ∀ o, (run_interface score target sources true).outcome =
        Outcome.ok o →
      ∃ i : ℕ, o = IndexOut.list [i]
        ∧ (run_interface score target sources false).outcome =
          Outcome.ok (IndexOut.scalar i) := by
  cases hm : maskIsEmpty (binarize_img target) with
  | true =>
    rw [run_interface_empty_mask score target sources false hm]
    rw [run_interface_empty_mask score target sources true hm]
    constructor
    · intro i
      simp
    · intro o ho
      simp at ho
  | false =>
    cases hn : nanargmax (scoreVector score target sources) with
    | none =>
      rw [run_interface_nonempty_nan score target sources false hm hn]
      rw [run_interface_nonempty_nan score target sources true hm hn]
      constructor
      · intro i
        simp
      · intro o ho
        simp at ho
    | some i0 =>
      rw [run_interface_success score target sources false i0 hm hn]
      rw [run_interface_success score target sources true i0 hm hn]
      constructor
      · intro i
        simp
      · intro o ho
        simp at ho
        exact ⟨i0, ho.symm, by simp⟩

/-- Witness for C7 at a concrete input. -/
theorem return_as_list_wraps_same_index_witness :
    (∀ i : ℕ,
      (run_interface matchScore [1, 2] [[1, 2]] false).outcome =
        Outcome.ok (IndexOut.scalar i)
      ↔ (run_interface matchScore [1, 2] [[1, 2]] true).outcome =
        Outcome.ok (IndexOut.list [i]))
    ∧ ∀ o, (run_interface matchScore [1, 2] [[1, 2]] true).outcome =
        Outcome.ok o →
      ∃ i : ℕ, o = IndexOut.list [i]
        ∧ (run_interface matchScore [1, 2] [[1, 2]] false).outcome =
          Outcome.ok (IndexOut.scalar i) :=
  return_as_list_wraps_same_index matchScore [1, 2] [[1, 2]]

/-- C8: per-candidate scoring is independent — the score at index `i` is a
function of the target (through the shared read-only mask and target voxels)
and of candidate `i` alone, so replacing or reordering the other candidates
leaves entry `i` of the score vector unchanged. -/
theorem per_candidate_scoring_independent
    (score : List ℚ → List ℚ → Option ℚ) (target : List ℚ)
    (cs cs2 : List (List ℚ)) (i : ℕ)
    (h : cs[i]? = cs2[i]?) :
    (scoreVector score target cs)[i]? =
      (scoreVector score target cs2)[i]? := by
  simp [scoreVector, List.getElem?_map, h]

/-- Witness for C8: the second candidate's score is unchanged when the first
candidate is replaced by a different volume. -/
theorem per_candidate_scoring_independent_witness :
    (scoreVector matchScore [1, 2] [[9, 9], [1, 2]])[1]? =
      (scoreVector matchScore [1, 2] [[7, 0], [1, 2]])[1]? :=
  per_candidate_scoring_independent matchScore [1, 2] [[9, 9], [1, 2]]
    [[7, 0], [1, 2]] 1 (by decide)

/-- C9: `check_params` returns the parameter dictionary itself exactly when
every required key is among the dictionary's keys, and raises `KeyError`
(modelled as `Except.error`) exactly when some required key is missing. -/
theorem check_params_spec {V : Type} (params : List (String × V))
    (required : List String) :
    (check_params params required = Except.ok params ↔
      ∀ k ∈ required, k ∈ params.map Prod.fst)
    ∧ (check_params params required = Except.error required ↔
      ¬ ∀ k ∈ required, k ∈ params.map Prod.fst) := by
  have hb : (required.all (fun k => (params.map Prod.fst).contains k) = true)
      ↔ ∀ k ∈ required, k ∈ params.map Prod.fst := by
    simp [List.all_eq_true]
  cases hcond : required.all (fun k => (params.map Prod.fst).contains k) with
  | true =>
    have hmem := hb.mp hcond
    have hok : check_params params required = Except.ok params := by
      unfold check_params
      rw [hcond]
      simp
    have hne : check_params params required ≠ Except.error required := by
      rw [hok]
      simp
    exact ⟨iff_of_true hok hmem, iff_of_false hne (not_not_intro hmem)⟩
  | false =>
    have hmem : ¬ ∀ k ∈ required, k ∈ params.map Prod.fst := by
      intro hall
      rw [hb.mpr hall] at hcond
      cases hcond
    have herr : check_params params required = Except.error required := by
      unfold check_params
      rw [hcond]
      simp
    have hne : check_params params required ≠ Except.ok params := by
      rw [herr]
      simp
    exact ⟨iff_of_false hne hmem, iff_of_true herr hmem⟩

/-- Witness for C9: a present key yields the dictionary back; a missing key
yields the error. -/
theorem check_params_spec_witness :
    check_params [("tr", (1 : ℤ)), ("te", 2)] ["te"] =
      Except.ok [("tr", 1), ("te", 2)] :=
  (check_params_spec [("tr", (1 : ℤ)), ("te", 2)] ["te"]).1.mpr (by decide)

/-- C10: `HemisphereMask` zeroes the sub-64 slab for the right mask and the
from-64-up slab for the left mask, voxelwise left + right reconstructs the
input, and both outputs carry the input's affine. -/
theorem hemisphere_mask_spec {A : Type} (img : Nifti A) (i j k : ℕ) :
    ((hemisphere_mask img).right_mask.data i j k =
      if i < 64 then 0 else img.data i j k)
    ∧ ((hemisphere_mask img).left_mask.data i j k =
      if 64 ≤ i then 0 else img.data i j k)
    ∧ ((hemisphere_mask img).left_mask.data i j k +
        (hemisphere_mask img).right_mask.data i j k = img.data i j k)
    ∧ (hemisphere_mask img).right_mask.affine = img.affine
    ∧ (hemisphere_mask img).left_mask.affine = img.affine := by
  unfold hemisphere_mask
  by_cases h : i < 64
  · simp [h, Nat.not_le.mpr h]
  · simp [h, Nat.le_of_not_lt h]
